import Mathlib

/-!
Verification development for the R3D3 viewer (src/main.rs).

The file embeds the frame loop and input handling of src/main.rs as pure
Lean functions over an explicit state, together with a call trace that
records every camera-mutator and graphics-context call the loop issues.
The camera, viewport and render-resource modules are not part of the
source tree; their state and mutators are modelled from the specification
(marked `Modelled from the spec:` below).  Scalar quantities that the
program stores as f32 are modelled as rationals.
-/

set_option maxHeartbeats 1000000

/-- 3D vector of rational coordinates, modelling nalgebra Vector3 of f32. -/
abbrev V3 : Type := ℚ × ℚ × ℚ

/-- SDL scancodes that src/main.rs inspects; every other scancode is
collapsed into otherKey. -/
inductive Scancode : Type
  | c
  | w
  | a
  | s
  | d
  | space
  | lctrl
  | lshift
  | rshift
  | otherKey
deriving DecidableEq

/-- Window events: src/main.rs matches only WindowEvent::Resized. -/
inductive WinEvent : Type
  | resized (w h : Int)
  | otherWin
deriving DecidableEq

/-- The SDL input events distinguished by src/main.rs.  mouseMotion carries
the relative motion and whether the right mouse button is held in the
mousestate of the event; every event shape the program never inspects is
collapsed into otherEvent. -/
inductive Event : Type
  | quit
  | keyDown (sc : Option Scancode)
  | keyUp (sc : Option Scancode)
  | window (we : WinEvent)
  | mouseWheel (y : Int)
  | mouseMotion (xrel yrel : Int) (rightHeld : Bool)
  | otherEvent
deriving DecidableEq

/-- Movement-intent flags of the target camera (spec section 3). -/
structure Movement : Type where
  forward : Bool
  backward : Bool
  left : Bool
  right : Bool
  up : Bool
  down : Bool
  faster : Bool
deriving DecidableEq

/-- Modelled from the spec: the TargetCamera state of the camera module
(not under src/), following the data model of spec sections 3 and 4.4:
orbit target, spherical offset (yaw, pitch, distance) with their clamp
bounds, projection parameters, movement-intent flags, and the accumulated
rotation and zoom deltas applied by update. -/
structure TargetCamera : Type where
  target : V3
  yaw : ℚ
  pitch : ℚ
  distance : ℚ
  minDistance : ℚ
  maxDistance : ℚ
  pitchMin : ℚ
  pitchMax : ℚ
  aspect : ℚ
  fov : ℚ
  near : ℚ
  far : ℚ
  movement : Movement
  pendingRotation : ℚ × ℚ
  pendingZoom : ℚ
deriving DecidableEq

/-- Clamp a rational into the interval from lo to hi. -/
def clampQ (x lo hi : ℚ) : ℚ := max lo (min x hi)

/-- Modelled from the spec: TargetCamera construction (spec section 4.4):
target at the origin, initial spherical offset from the constructor
arguments.  The clamp bounds and sensitivity constants are implementation
choices left open by the spec (section 9); fixed rational values are
chosen here, with pi approximated by 157/50 as in the fov argument of the
call site in src/main.rs. -/
def TargetCamera.new (aspect fov near far initialPitch distance : ℚ) :
    TargetCamera :=
  { target := (0, 0, 0)
    yaw := 0
    pitch := initialPitch
    distance := distance
    minDistance := 1/2
    maxDistance := 100
    pitchMin := 1/100
    pitchMax := 157/50 - 1/100
    aspect := aspect
    fov := fov
    near := near
    far := far
    movement := ⟨false, false, false, false, false, false, false⟩
    pendingRotation := (0, 0)
    pendingZoom := 0 }

/-- Modelled from the spec: rotate accumulates the rotation delta
(spec sections 3 and 4.4: accumulated rotation delta, applied by update);
it mutates no other camera field. -/
def TargetCamera.rotate (c : TargetCamera) (d : ℚ × ℚ) : TargetCamera :=
  { c with pendingRotation :=
      (c.pendingRotation.1 + d.1, c.pendingRotation.2 + d.2) }

/-- Modelled from the spec: zoom accumulates the zoom delta
(spec sections 3 and 4.4: accumulated zoom delta, applied by update with
the distance clamp); it mutates no other camera field. -/
def TargetCamera.zoom (c : TargetCamera) (y : ℚ) : TargetCamera :=
  { c with pendingZoom := c.pendingZoom + y }

/-- Modelled from the spec: update_aspect replaces the aspect ratio used
by the projection (spec section 4.4). -/
def TargetCamera.update_aspect (c : TargetCamera) (a : ℚ) : TargetCamera :=
  { c with aspect := a }

/-- Indicator of a movement flag as a rational displacement factor. -/
def flagQ (b : Bool) : ℚ := if b then 1 else 0

/-- Modelled from the spec: update dt (spec section 4.4) integrates the
movement-intent flags into a translation of the target scaled by dt and
the faster multiplier, applies the pending rotation delta with the pitch
clamp and the pending zoom delta with the distance clamp, resets the
accumulators, and returns whether the target moved.  The local movement
frame and the speed constants are implementation choices left open by the
spec (section 9); a world-axis-aligned frame with unit base speed and a
faster multiplier of 2 is used. -/
def TargetCamera.update (c : TargetCamera) (dt : ℚ) : TargetCamera × Bool :=
  let sp : ℚ := (if c.movement.faster then 2 else 1) * dt
  let dx : ℚ := (flagQ c.movement.right - flagQ c.movement.left) * sp
  let dy : ℚ := (flagQ c.movement.up - flagQ c.movement.down) * sp
  let dz : ℚ := (flagQ c.movement.forward - flagQ c.movement.backward) * sp
  let t : V3 := (c.target.1 + dx, c.target.2.1 + dy, c.target.2.2 + dz)
  ({ c with
      target := t
      yaw := c.yaw + c.pendingRotation.1
      pitch := clampQ (c.pitch + c.pendingRotation.2) c.pitchMin c.pitchMax
      distance := clampQ (c.distance - c.pendingZoom) c.minDistance c.maxDistance
      pendingRotation := (0, 0)
      pendingZoom := 0 },
   decide (t ≠ c.target))

/-- Modelled from the spec: the view-projection matrix is
perspective(fov, aspect, near, far) composed with
lookAt(position, target, up), where the position is determined by the
target and the spherical offset (spec section 4.4).  Its entries involve
trigonometric functions, so the matrix is represented by the complete
tuple of camera parameters that determine it. -/
structure VpMatrix : Type where
  aspect : ℚ
  fov : ℚ
  near : ℚ
  far : ℚ
  target : V3
  yaw : ℚ
  pitch : ℚ
  distance : ℚ
deriving DecidableEq

/-- Modelled from the spec: get_vp_matrix recomputes the view-projection
matrix fresh from the current camera state (spec section 4.4). -/
def TargetCamera.get_vp_matrix (c : TargetCamera) : VpMatrix :=
  ⟨c.aspect, c.fov, c.near, c.far, c.target, c.yaw, c.pitch, c.distance⟩

/-- Modelled from the spec: the camera position is
target + distance times direction(yaw, pitch) (spec section 4.4); the
trigonometric direction map is represented by the tuple of parameters
that determine the position. -/
structure CamPos : Type where
  target : V3
  yaw : ℚ
  pitch : ℚ
  distance : ℚ
deriving DecidableEq

/-- Modelled from the spec: project_pos derives the camera position from
the target and the spherical offset. -/
def TargetCamera.project_pos (c : TargetCamera) : CamPos :=
  ⟨c.target, c.yaw, c.pitch, c.distance⟩

/-- Modelled from the spec: the Viewport tracks the window pixel
dimensions (spec section 4.2). -/
structure Viewport : Type where
  w : Int
  h : Int
deriving DecidableEq

/-- Modelled from the spec: Viewport construction with the initial size. -/
def Viewport.for_window (w h : Int) : Viewport := ⟨w, h⟩

/-- Modelled from the spec: update_size replaces the stored dimensions
without side effects (spec section 4.2). -/
def Viewport.update_size (_v : Viewport) (w h : Int) : Viewport := ⟨w, h⟩

/-- Movement flag names, used to record flag mutations in the call trace. -/
inductive CamFlag : Type
  | forward
  | backward
  | left
  | right
  | up
  | down
  | faster
deriving DecidableEq

/-- One camera-mutator or graphics-context call issued by the frame loop
of src/main.rs, recorded in program order with its arguments. -/
inductive Call : Type
  | camSetFlag (f : CamFlag) (b : Bool)
  | camZoom (y : ℚ)
  | camRotate (d : ℚ × ℚ)
  | camUpdateAspect (a : ℚ)
  | camUpdate (dt : ℚ)
  | viewportUpdateSize (w h : Int)
  | viewportSetUsed (w h : Int)
  | setClearColor (r g b : ℚ)
  | markerUpdatePosition (p : V3)
  | getVpMatrix
  | enableCullFace
  | glClear
  | enableDepthTest
  | colorBufferClear
  | cubeRender (vp : VpMatrix) (pos : CamPos)
  | debugRender (vp : VpMatrix)
  | present
deriving DecidableEq

/-- Embedding of handle_camera_event (src/main.rs lines 154 to 200):
dispatches one event to the camera mutators and records the mutator
calls it makes. -/
def handleCameraEvent (c : TargetCamera) (e : Event) :
    TargetCamera × List Call :=
  match e with
  | .mouseWheel y =>
      (c.zoom (y : ℚ), [Call.camZoom (y : ℚ)])
  | .keyDown (some sc) =>
      match sc with
      | .lshift =>
          ({ c with movement := { c.movement with faster := true } },
           [Call.camSetFlag .faster true])
      | .rshift =>
          ({ c with movement := { c.movement with faster := true } },
           [Call.camSetFlag .faster true])
      | .a =>
          ({ c with movement := { c.movement with left := true } },
           [Call.camSetFlag .left true])
      | .w =>
          ({ c with movement := { c.movement with forward := true } },
           [Call.camSetFlag .forward true])
      | .s =>
          ({ c with movement := { c.movement with backward := true } },
           [Call.camSetFlag .backward true])
      | .d =>
          ({ c with movement := { c.movement with right := true } },
           [Call.camSetFlag .right true])
      | .space =>
          ({ c with movement := { c.movement with up := true } },
           [Call.camSetFlag .up true])
      | .lctrl =>
          ({ c with movement := { c.movement with down := true } },
           [Call.camSetFlag .down true])
      | _ => (c, [])
  | .keyUp (some sc) =>
      match sc with
      | .lshift =>
          ({ c with movement := { c.movement with faster := false } },
           [Call.camSetFlag .faster false])
      | .rshift =>
          ({ c with movement := { c.movement with faster := false } },
           [Call.camSetFlag .faster false])
      | .a =>
          ({ c with movement := { c.movement with left := false } },
           [Call.camSetFlag .left false])
      | .w =>
          ({ c with movement := { c.movement with forward := false } },
           [Call.camSetFlag .forward false])
      | .s =>
          ({ c with movement := { c.movement with backward := false } },
           [Call.camSetFlag .backward false])
      | .d =>
          ({ c with movement := { c.movement with right := false } },
           [Call.camSetFlag .right false])
      | .space =>
          ({ c with movement := { c.movement with up := false } },
           [Call.camSetFlag .up false])
      | .lctrl =>
          ({ c with movement := { c.movement with down := false } },
           [Call.camSetFlag .down false])
      | _ => (c, [])
  | .mouseMotion xrel yrel rightHeld =>
      if rightHeld then
        (c.rotate ((xrel : ℚ), -(yrel : ℚ)),
         [Call.camRotate ((xrel : ℚ), -(yrel : ℚ))])
      else (c, [])
  | _ => (c, [])

/-- The mutable state owned by run (src/main.rs run): the camera, the
viewport, the side_cam toggle, and the position of the camera-target
marker created at line 98. -/
structure LoopState : Type where
  camera : TargetCamera
  viewport : Viewport
  sideCam : Bool
  markerPos : V3
deriving DecidableEq

/-- Embedding of the event dispatch of the main loop
(src/main.rs lines 111 to 129): quit breaks the loop, a C key-down
toggles side_cam, a window resize updates the viewport size, applies it
to the context and updates the camera aspect ratio, and every other
event is forwarded to handleCameraEvent.  Returns the new state, the
calls issued, and whether the loop is left. -/
def processEvent (s : LoopState) (e : Event) :
    LoopState × List Call × Bool :=
  match e with
  | .quit => (s, ([], true))
  | .keyDown (some .c) =>
      ({ s with sideCam := !s.sideCam }, ([], false))
  | .window (.resized w h) =>
      let vp := s.viewport.update_size w h
      ({ s with
          viewport := vp
          camera := s.camera.update_aspect ((w : ℚ) / (h : ℚ)) },
       ([Call.viewportUpdateSize w h,
         Call.viewportSetUsed vp.w vp.h,
         Call.camUpdateAspect ((w : ℚ) / (h : ℚ))], false))
  | e =>
      let r := handleCameraEvent s.camera e
      ({ s with camera := r.1 }, (r.2, false))

/-- Embedding of the event-polling loop of one frame
(src/main.rs lines 111 to 130): events are dispatched in order; a quit
event stops processing immediately (break of the labelled main loop). -/
def processEvents : LoopState → List Event → LoopState × List Call × Bool
  | s, [] => (s, ([], false))
  | s, e :: rest =>
      let r := processEvent s e
      if r.2.2 then (r.1, (r.2.1, true))
      else
        let r2 := processEvents r.1 rest
        (r2.1, (r.2.1 ++ r2.2.1, r2.2.2))

/-- Embedding of the body of one frame after event handling
(src/main.rs lines 131 to 148): camera.update with the elapsed time,
repositioning of the target marker when the target moved, computation of
the view-projection matrix, the GL state and clear calls, the cube and
debug-line draws, and the buffer swap. -/
def frameBody (s : LoopState) (dt : ℚ) : LoopState × List Call :=
  let r := s.camera.update dt
  let markerCalls :=
    if r.2 then [Call.markerUpdatePosition r.1.target] else []
  let mp := if r.2 then r.1.target else s.markerPos
  let vp := r.1.get_vp_matrix
  ({ s with camera := r.1, markerPos := mp },
   Call.camUpdate dt :: markerCalls ++
     [Call.getVpMatrix, Call.enableCullFace, Call.glClear,
      Call.enableDepthTest, Call.colorBufferClear,
      Call.cubeRender vp r.1.project_pos, Call.debugRender vp,
      Call.present])

/-- One iteration of the main loop: the polled events of the iteration
and the elapsed time since the previous iteration. -/
structure FrameInput : Type where
  events : List Event
  dt : ℚ
deriving DecidableEq

/-- One full iteration of the main loop (src/main.rs lines 110 to 149):
event handling, then, unless a quit event stopped the iteration, the
frame body. -/
def processFrame (s : LoopState) (f : FrameInput) :
    LoopState × List Call × Bool :=
  let r := processEvents s f.events
  if r.2.2 then (r.1, (r.2.1, true))
  else
    let b := frameBody r.1 f.dt
    (b.1, (r.2.1 ++ b.2, false))

/-- The main loop over a sequence of frame inputs, stopping at the first
iteration that sees a quit event. -/
def runLoop : LoopState → List FrameInput → LoopState × List Call
  | s, [] => (s, [])
  | s, f :: rest =>
      let r := processFrame s f
      if r.2.2 then (r.1, r.2.1)
      else
        let r2 := runLoop r.1 rest
        (r2.1, r.2.1 ++ r2.2)

/-- The camera constructed by run (src/main.rs lines 90 to 97), with the
literal f32 arguments as rationals: aspect 800/600, fov 3.14/2,
near 0.01, far 1000, initial angle 3.14/4, distance 2. -/
def initCamera : TargetCamera :=
  TargetCamera.new (800/600) (157/100) (1/100) 1000 (157/200) 2

/-- The state of run just before the main loop: the viewport for the
800 by 600 window, side_cam false, and the target marker at the camera
target (src/main.rs lines 84 to 107). -/
def initState : LoopState :=
  { camera := initCamera
    viewport := Viewport.for_window 800 600
    sideCam := false
    markerPos := initCamera.target }

/-- The complete call trace of run (src/main.rs lines 102 to 149) on a
sequence of frame inputs: the startup viewport.set_used and
set_clear_color calls, then the main-loop trace. -/
def runMainCalls (fs : List FrameInput) : List Call :=
  Call.viewportSetUsed 800 600 ::
    Call.setClearColor (3/10) (3/10) (1/2) ::
      (runLoop initState fs).2

/-- Calls that event dispatch can issue: flag, zoom, rotate and aspect
mutators, viewport size updates and viewport set_used applications. -/
def isEventCall : Call → Bool
  | .camSetFlag _ _ => true
  | .camZoom _ => true
  | .camRotate _ => true
  | .camUpdateAspect _ => true
  | .viewportUpdateSize _ _ => true
  | .viewportSetUsed _ _ => true
  | _ => false

/-- Graphics-context calls: the calls that reach the GL context, as
opposed to pure camera or CPU-side buffer mutations. -/
def isCtxCall : Call → Bool
  | .viewportSetUsed _ _ => true
  | .setClearColor _ _ _ => true
  | .enableCullFace => true
  | .glClear => true
  | .enableDepthTest => true
  | .colorBufferClear => true
  | .cubeRender _ _ => true
  | .debugRender _ => true
  | .present => true
  | _ => false

/-- Recognizer of camUpdate calls. -/
def isCamUpdateCall : Call → Bool
  | .camUpdate _ => true
  | _ => false

/-- Recognizer of getVpMatrix calls. -/
def isGetVpCall : Call → Bool
  | .getVpMatrix => true
  | _ => false

/-- Recognizer of viewportSetUsed calls. -/
def isSetUsedCall : Call → Bool
  | .viewportSetUsed _ _ => true
  | _ => false

/-- Recognizer of markerUpdatePosition calls. -/
def isMarkerCall : Call → Bool
  | .markerUpdatePosition _ => true
  | _ => false

lemma handleCameraEvent_calls (c : TargetCamera) (e : Event) :
    ∀ x ∈ (handleCameraEvent c e).2, isEventCall x = true := by
  cases e with
  | mouseWheel y => simp [handleCameraEvent, isEventCall]
  | keyDown sc =>
      cases sc with
      | none => simp [handleCameraEvent]
      | some k => cases k <;> simp [handleCameraEvent, isEventCall]
  | keyUp sc =>
      cases sc with
      | none => simp [handleCameraEvent]
      | some k => cases k <;> simp [handleCameraEvent, isEventCall]
  | mouseMotion xrel yrel rightHeld =>
      cases rightHeld <;> simp [handleCameraEvent, isEventCall]
  | quit => simp [handleCameraEvent]
  | window we => cases we <;> simp [handleCameraEvent]
  | otherEvent => simp [handleCameraEvent]

lemma processEvent_calls (s : LoopState) (e : Event) :
    ∀ x ∈ (processEvent s e).2.1, isEventCall x = true := by
  cases e with
  | quit => simp [processEvent]
  | keyDown sc =>
      cases sc with
      | none => exact handleCameraEvent_calls s.camera (.keyDown none)
      | some k =>
          cases k <;>
            first
            | exact handleCameraEvent_calls s.camera (.keyDown (some _))
            | simp [processEvent]
  | keyUp sc => exact handleCameraEvent_calls s.camera (.keyUp sc)
  | window we =>
      cases we with
      | resized w h => simp [processEvent, isEventCall]
      | otherWin => exact handleCameraEvent_calls s.camera (.window .otherWin)
  | mouseWheel y => exact handleCameraEvent_calls s.camera (.mouseWheel y)
  | mouseMotion a b r => exact handleCameraEvent_calls s.camera (.mouseMotion a b r)
  | otherEvent => exact handleCameraEvent_calls s.camera .otherEvent

lemma processEvents_calls (es : List Event) :
    ∀ s : LoopState, ∀ x ∈ (processEvents s es).2.1, isEventCall x = true := by
  induction es with
  | nil => intro s x hx; simp [processEvents] at hx
  | cons e rest ih =>
      intro s x hx
      simp only [processEvents] at hx
      by_cases hq : (processEvent s e).2.2
      · rw [if_pos hq] at hx
        exact processEvent_calls s e x hx
      · rw [if_neg hq] at hx
        simp only [List.mem_append] at hx
        rcases hx with hx | hx
        · exact processEvent_calls s e x hx
        · exact ih _ x hx

lemma eventCall_class (x : Call) (h : isEventCall x = true) :
    isCamUpdateCall x = false ∧ isGetVpCall x = false ∧
    isMarkerCall x = false ∧ (isCtxCall x = true → isSetUsedCall x = true) := by
  cases x <;>
    simp_all [isEventCall, isCamUpdateCall, isGetVpCall, isMarkerCall,
      isCtxCall, isSetUsedCall]

lemma processFrame_trace (s : LoopState) (f : FrameInput)
    (hq : (processEvents s f.events).2.2 = false) :
    (processFrame s f).2.1
      = (processEvents s f.events).2.1
          ++ (frameBody (processEvents s f.events).1 f.dt).2 := by
  simp only [processFrame]
  rw [if_neg (by simp [hq])]

lemma frameBody_trace (s : LoopState) (dt : ℚ) :
    (frameBody s dt).2
      = Call.camUpdate dt ::
          ((if (s.camera.update dt).2
            then [Call.markerUpdatePosition (s.camera.update dt).1.target]
            else []) ++
           [Call.getVpMatrix, Call.enableCullFace, Call.glClear,
            Call.enableDepthTest, Call.colorBufferClear,
            Call.cubeRender ((s.camera.update dt).1.get_vp_matrix)
              ((s.camera.update dt).1.project_pos),
            Call.debugRender ((s.camera.update dt).1.get_vp_matrix),
            Call.present]) := rfl

/-- C1: for every mouse-motion event, the rotate mutator of the camera is
invoked (with the relative motion, y negated) exactly when the right
mouse button is held during the event, and a mouse-motion event without
the right button held leaves the camera unchanged and issues no call. -/
theorem c1_mouse_motion_rotate_iff_right_held (c : TargetCamera) (x y : Int) :
    handleCameraEvent c (Event.mouseMotion x y true)
      = (c.rotate ((x : ℚ), -(y : ℚ)), [Call.camRotate ((x : ℚ), -(y : ℚ))])
    ∧ handleCameraEvent c (Event.mouseMotion x y false) = (c, []) :=
  ⟨rfl, rfl⟩

/-- C6: each movement-key key-down sets exactly the corresponding
movement-intent flag to true and mutates no other camera field, and the
key-up of the same key sets exactly that flag to false; LShift and RShift
both control the faster flag. -/
theorem c6_movement_keys_set_exactly_their_flag (c : TargetCamera) :
    handleCameraEvent c (.keyDown (some .w))
      = ({ c with movement := { c.movement with forward := true } },
         [Call.camSetFlag .forward true])
    ∧ handleCameraEvent c (.keyUp (some .w))
      = ({ c with movement := { c.movement with forward := false } },
         [Call.camSetFlag .forward false])
    ∧ handleCameraEvent c (.keyDown (some .a))
      = ({ c with movement := { c.movement with left := true } },
         [Call.camSetFlag .left true])
    ∧ handleCameraEvent c (.keyUp (some .a))
      = ({ c with movement := { c.movement with left := false } },
         [Call.camSetFlag .left false])
    ∧ handleCameraEvent c (.keyDown (some .s))
      = ({ c with movement := { c.movement with backward := true } },
         [Call.camSetFlag .backward true])
    ∧ handleCameraEvent c (.keyUp (some .s))
      = ({ c with movement := { c.movement with backward := false } },
         [Call.camSetFlag .backward false])
    ∧ handleCameraEvent c (.keyDown (some .d))
      = ({ c with movement := { c.movement with right := true } },
         [Call.camSetFlag .right true])
    ∧ handleCameraEvent c (.keyUp (some .d))
      = ({ c with movement := { c.movement with right := false } },
         [Call.camSetFlag .right false])
    ∧ handleCameraEvent c (.keyDown (some .space))
      = ({ c with movement := { c.movement with up := true } },
         [Call.camSetFlag .up true])
    ∧ handleCameraEvent c (.keyUp (some .space))
      = ({ c with movement := { c.movement with up := false } },
         [Call.camSetFlag .up false])
    ∧ handleCameraEvent c (.keyDown (some .lctrl))
      = ({ c with movement := { c.movement with down := true } },
         [Call.camSetFlag .down true])
    ∧ handleCameraEvent c (.keyUp (some .lctrl))
      = ({ c with movement := { c.movement with down := false } },
         [Call.camSetFlag .down false])
    ∧ handleCameraEvent c (.keyDown (some .lshift))
      = ({ c with movement := { c.movement with faster := true } },
         [Call.camSetFlag .faster true])
    ∧ handleCameraEvent c (.keyUp (some .lshift))
      = ({ c with movement := { c.movement with faster := false } },
         [Call.camSetFlag .faster false])
    ∧ handleCameraEvent c (.keyDown (some .rshift))
      = ({ c with movement := { c.movement with faster := true } },
         [Call.camSetFlag .faster true])
    ∧ handleCameraEvent c (.keyUp (some .rshift))
      = ({ c with movement := { c.movement with faster := false } },
         [Call.camSetFlag .faster false]) :=
  ⟨rfl, rfl, rfl, rfl, rfl, rfl, rfl, rfl, rfl, rfl, rfl, rfl, rfl, rfl,
   rfl, rfl⟩

/-- Events that the frame loop does not recognize: everything except a
quit signal, a C key-down, a window resize, a movement key-down or
key-up, a mouse wheel, and a right-button mouse motion. -/
def unrecognizedEvent : Event → Bool
  | .quit => false
  | .keyDown none => true
  | .keyDown (some sc) =>
      match sc with
      | .otherKey => true
      | _ => false
  | .keyUp none => true
  | .keyUp (some sc) =>
      match sc with
      | .c => true
      | .otherKey => true
      | _ => false
  | .window (.resized _ _) => false
  | .window .otherWin => true
  | .mouseWheel _ => false
  | .mouseMotion _ _ rightHeld => !rightHeld
  | .otherEvent => true

/-- C7: every input event outside the recognized set leaves the entire
loop state (camera, viewport, side_cam, marker) unchanged, issues no
call, and does not leave the loop; the embedding is total, so no error
is raised. -/
theorem c7_unrecognized_events_are_ignored (s : LoopState) (e : Event)
    (h : unrecognizedEvent e = true) :
    processEvent s e = (s, ([], false)) := by
  cases e with
  | quit => simp [unrecognizedEvent] at h
  | keyDown sc =>
      cases sc with
      | none => rfl
      | some k => cases k <;> first | rfl | simp [unrecognizedEvent] at h
  | keyUp sc =>
      cases sc with
      | none => rfl
      | some k => cases k <;> first | rfl | simp [unrecognizedEvent] at h
  | window we =>
      cases we with
      | resized w h2 => simp [unrecognizedEvent] at h
      | otherWin => rfl
  | mouseWheel y => simp [unrecognizedEvent] at h
  | mouseMotion a b r =>
      cases r with
      | true => simp [unrecognizedEvent] at h
      | false => rfl
  | otherEvent => rfl

/-- C7 witness: a concrete unrecognized event at the initial state. -/
theorem c7_unrecognized_events_are_ignored_witness :
    unrecognizedEvent Event.otherEvent = true
    ∧ processEvent initState Event.otherEvent = (initState, ([], false)) :=
  ⟨rfl, c7_unrecognized_events_are_ignored initState Event.otherEvent rfl⟩

/-- C8: a mouse-wheel event with vertical amount y issues exactly one
zoom call with argument y, the resulting camera is the zoom of the
previous one, and zoom mutates only the accumulated zoom delta. -/
theorem c8_mouse_wheel_zooms_only (c : TargetCamera) (y : Int) :
    handleCameraEvent c (.mouseWheel y)
      = (c.zoom (y : ℚ), [Call.camZoom (y : ℚ)])
    ∧ c.zoom (y : ℚ) = { c with pendingZoom := c.pendingZoom + (y : ℚ) } :=
  ⟨rfl, rfl⟩

/-- The property claimed for a window resize and the frame ordering: the
resize handler issues update_size, set_used and update_aspect in that
order; the frame trace is the event calls followed by the frame-body
calls; event calls are only input-handling calls; get_vp_matrix and the
two draws happen in the frame body; and the startup trace applies
viewport.set_used first, before any frame. -/
def C3Shape (s : LoopState) (f : FrameInput) (w h : Int)
    (fs : List FrameInput) : Prop :=
  processEvent s (.window (.resized w h))
    = ({ s with
          viewport := Viewport.mk w h
          camera := s.camera.update_aspect ((w : ℚ) / (h : ℚ)) },
       ([Call.viewportUpdateSize w h, Call.viewportSetUsed w h,
         Call.camUpdateAspect ((w : ℚ) / (h : ℚ))], false))
  ∧ (processFrame s f).2.1
      = (processEvents s f.events).2.1
          ++ (frameBody (processEvents s f.events).1 f.dt).2
  ∧ (∀ x ∈ (processEvents s f.events).2.1, isEventCall x = true)
  ∧ Call.getVpMatrix ∈ (frameBody (processEvents s f.events).1 f.dt).2
  ∧ Call.cubeRender
        (((processEvents s f.events).1.camera.update f.dt).1.get_vp_matrix)
        (((processEvents s f.events).1.camera.update f.dt).1.project_pos)
      ∈ (frameBody (processEvents s f.events).1 f.dt).2
  ∧ Call.debugRender
        (((processEvents s f.events).1.camera.update f.dt).1.get_vp_matrix)
      ∈ (frameBody (processEvents s f.events).1 f.dt).2
  ∧ (runMainCalls fs).head? = some (Call.viewportSetUsed 800 600)

/-- C3: on every resize event the handler calls viewport.update_size,
then viewport.set_used, then camera.update_aspect with the new ratio,
all during event handling, which precedes the get_vp_matrix and draw
calls of the frame; and viewport.set_used is called once at startup
before the first frame. -/
theorem c3_resize_updates_before_draws (s : LoopState) (f : FrameInput)
    (w h : Int) (fs : List FrameInput)
    (hq : (processEvents s f.events).2.2 = false) :
    C3Shape s f w h fs := by
  unfold C3Shape
  refine ⟨rfl, processFrame_trace s f hq, processEvents_calls f.events s,
    ?_, ?_, ?_, rfl⟩ <;>
  · rw [frameBody_trace]
    simp

/-- C3 witness: a frame whose only event is a resize, at the initial
state. -/
theorem c3_resize_updates_before_draws_witness :
    (processEvents initState
        (FrameInput.mk [Event.window (WinEvent.resized 640 480)] 1).events).2.2
      = false
    ∧ C3Shape initState
        (FrameInput.mk [Event.window (WinEvent.resized 640 480)] 1)
        640 480 [] :=
  ⟨rfl, c3_resize_updates_before_draws initState
      (FrameInput.mk [Event.window (WinEvent.resized 640 480)] 1)
      640 480 [] rfl⟩

/-- The property claimed for camera.update and the target marker in one
frame: exactly one camUpdate call, carrying the frame dt, and a marker
update_position call exactly when update reported that the target moved,
carrying the new target. -/
def C4Shape (s : LoopState) (f : FrameInput) : Prop :=
  ((processFrame s f).2.1).countP isCamUpdateCall = 1
  ∧ Call.camUpdate f.dt ∈ (processFrame s f).2.1
  ∧ ((processFrame s f).2.1).countP isMarkerCall
      = (if ((processEvents s f.events).1.camera.update f.dt).2
         then 1 else 0)
  ∧ (((processEvents s f.events).1.camera.update f.dt).2 = true →
      Call.markerUpdatePosition
          ((processEvents s f.events).1.camera.update f.dt).1.target
        ∈ (processFrame s f).2.1)

/-- C4: in every completed frame iteration camera.update is called
exactly once, with the elapsed time of the frame, and the target marker
is repositioned to the camera target exactly when update returned true. -/
theorem c4_update_once_marker_iff_moved (s : LoopState) (f : FrameInput)
    (hq : (processEvents s f.events).2.2 = false) :
    C4Shape s f := by
  have ht := processFrame_trace s f hq
  have hev : ∀ p : Call → Bool,
      (∀ x, isEventCall x = true → p x = false) →
      ((processEvents s f.events).2.1).countP p = 0 := by
    intro p hp
    refine List.countP_eq_zero.mpr ?_
    intro x hx
    simp [hp x (processEvents_calls f.events s x hx)]
  refine ⟨?_, ?_, ?_, ?_⟩
  · rw [ht, List.countP_append,
      hev isCamUpdateCall (fun x hx => (eventCall_class x hx).1),
      frameBody_trace]
    cases hb : ((processEvents s f.events).1.camera.update f.dt).2 <;>
      simp [hb, List.countP_cons, List.countP_append, isCamUpdateCall]
  · rw [ht, frameBody_trace]
    simp
  · rw [ht, List.countP_append,
      hev isMarkerCall (fun x hx => (eventCall_class x hx).2.2.1),
      frameBody_trace]
    cases hb : ((processEvents s f.events).1.camera.update f.dt).2 <;>
      simp [hb, List.countP_cons, List.countP_append, isMarkerCall]
  · intro hm
    rw [ht, frameBody_trace]
    simp [hm]

/-- C4 witness: a frame with no events and dt 1 at the initial state. -/
theorem c4_update_once_marker_iff_moved_witness :
    (processEvents initState (FrameInput.mk [] 1).events).2.2 = false
    ∧ C4Shape initState (FrameInput.mk [] 1) :=
  ⟨rfl, c4_update_once_marker_iff_moved initState (FrameInput.mk [] 1) rfl⟩

/-- The property claimed for the view-projection matrix in one frame:
get_vp_matrix is computed exactly once, and the cube draw and the
debug-line draw both receive that same matrix, computed from the camera
state after update. -/
def C9Shape (s : LoopState) (f : FrameInput) : Prop :=
  ((processFrame s f).2.1).countP isGetVpCall = 1
  ∧ Call.cubeRender
        (((processEvents s f.events).1.camera.update f.dt).1.get_vp_matrix)
        (((processEvents s f.events).1.camera.update f.dt).1.project_pos)
      ∈ (processFrame s f).2.1
  ∧ Call.debugRender
        (((processEvents s f.events).1.camera.update f.dt).1.get_vp_matrix)
      ∈ (processFrame s f).2.1

/-- C9: in every completed frame iteration get_vp_matrix is called
exactly once and the identical matrix is passed to both the cube render
and the debug-line render. -/
theorem c9_single_vp_matrix_for_all_draws (s : LoopState) (f : FrameInput)
    (hq : (processEvents s f.events).2.2 = false) :
    C9Shape s f := by
  have ht := processFrame_trace s f hq
  refine ⟨?_, ?_, ?_⟩
  · rw [ht, List.countP_append,
      List.countP_eq_zero.mpr
        (fun x hx => by
          simp [(eventCall_class x (processEvents_calls f.events s x hx)).2.1]),
      frameBody_trace]
    cases hb : ((processEvents s f.events).1.camera.update f.dt).2 <;>
      simp [hb, List.countP_cons, List.countP_append, isGetVpCall]
  · rw [ht, frameBody_trace]
    simp
  · rw [ht, frameBody_trace]
    simp

/-- C9 witness: a frame with no events and dt 1 at the initial state. -/
theorem c9_single_vp_matrix_for_all_draws_witness :
    (processEvents initState (FrameInput.mk [] 1).events).2.2 = false
    ∧ C9Shape initState (FrameInput.mk [] 1) :=
  ⟨rfl, c9_single_vp_matrix_for_all_draws initState (FrameInput.mk [] 1) rfl⟩

/-- The property claimed for the per-frame graphics-context order: the
context calls of a completed frame are the set_used applications made
during event handling, followed in fixed order by the GL state and clear
calls, the clear of the color buffer, the cube draw, the debug-line
draw, and the present, which is also the last call of the frame. -/
def C5Shape (s : LoopState) (f : FrameInput) : Prop :=
  ((processFrame s f).2.1).filter isCtxCall
    = (((processEvents s f.events).2.1).filter isCtxCall)
        ++ [Call.enableCullFace, Call.glClear, Call.enableDepthTest,
            Call.colorBufferClear,
            Call.cubeRender
              (((processEvents s f.events).1.camera.update f.dt).1.get_vp_matrix)
              (((processEvents s f.events).1.camera.update f.dt).1.project_pos),
            Call.debugRender
              (((processEvents s f.events).1.camera.update f.dt).1.get_vp_matrix),
            Call.present]
  ∧ (∀ x ∈ ((processEvents s f.events).2.1).filter isCtxCall,
      isSetUsedCall x = true)
  ∧ ((processFrame s f).2.1).getLast? = some Call.present

/-- C5: in every completed frame iteration the graphics-context calls
execute in the fixed order: the set_used applications issued during
input handling first, then the clear calls, then the cube and debug-line
draws, then the present, which is the last call of the iteration. -/
theorem c5_context_calls_fixed_order (s : LoopState) (f : FrameInput)
    (hq : (processEvents s f.events).2.2 = false) :
    C5Shape s f := by
  have ht := processFrame_trace s f hq
  refine ⟨?_, ?_, ?_⟩
  · rw [ht, List.filter_append, frameBody_trace]
    cases hb : ((processEvents s f.events).1.camera.update f.dt).2 <;>
      simp [hb, List.filter_append, isCtxCall]
  · intro x hx
    rw [List.mem_filter] at hx
    exact (eventCall_class x
      (processEvents_calls f.events s x hx.1)).2.2.2 hx.2
  · rw [ht, frameBody_trace]
    cases hb : ((processEvents s f.events).1.camera.update f.dt).2 <;>
      simp [hb, List.getLast?_append_cons]

/-- C5 witness: a frame whose events are a resize and a movement key at
the initial state. -/
theorem c5_context_calls_fixed_order_witness :
    (processEvents initState
        (FrameInput.mk
          [Event.window (WinEvent.resized 320 200),
           Event.keyDown (some Scancode.w)] 1).events).2.2 = false
    ∧ C5Shape initState
        (FrameInput.mk
          [Event.window (WinEvent.resized 320 200),
           Event.keyDown (some Scancode.w)] 1) :=
  ⟨rfl, c5_context_calls_fixed_order initState
      (FrameInput.mk
        [Event.window (WinEvent.resized 320 200),
         Event.keyDown (some Scancode.w)] 1) rfl⟩

/-- Recognizer of a C key-down event (the side_cam toggle). -/
def isCKeyDown : Event → Bool
  | .keyDown (some .c) => true
  | _ => false

/-- Remove every C key-down from an event list. -/
def stripC (es : List Event) : List Event :=
  es.filter (fun e => !(isCKeyDown e))

/-- Remove every C key-down from the events of a frame input. -/
def stripFrame (f : FrameInput) : FrameInput :=
  ⟨stripC f.events, f.dt⟩

/-- Agreement of two loop states on every component except the side_cam
boolean. -/
def agreeNoSide (s t : LoopState) : Prop :=
  s.camera = t.camera ∧ s.viewport = t.viewport ∧ s.markerPos = t.markerPos

lemma processEvents_cons_quit (s : LoopState) (e : Event) (rest : List Event)
    (hq : (processEvent s e).2.2 = true) :
    processEvents s (e :: rest)
      = ((processEvent s e).1, ((processEvent s e).2.1, true)) := by
  simp only [processEvents]
  rw [if_pos (by simp [hq])]

lemma processEvents_cons_noquit (s : LoopState) (e : Event)
    (rest : List Event) (hq : (processEvent s e).2.2 = false) :
    processEvents s (e :: rest)
      = ((processEvents (processEvent s e).1 rest).1,
         ((processEvent s e).2.1
            ++ (processEvents (processEvent s e).1 rest).2.1,
          (processEvents (processEvent s e).1 rest).2.2)) := by
  simp only [processEvents]
  rw [if_neg (by simp [hq])]

lemma processEvent_agree (s t : LoopState) (e : Event)
    (h : agreeNoSide s t) (he : isCKeyDown e = false) :
    agreeNoSide (processEvent s e).1 (processEvent t e).1
    ∧ (processEvent s e).2 = (processEvent t e).2 := by
  obtain ⟨hc, hv, hm⟩ := h
  cases e with
  | quit => exact ⟨⟨hc, hv, hm⟩, rfl⟩
  | keyDown sc =>
      cases sc with
      | none => simp [processEvent, handleCameraEvent, agreeNoSide, hc, hv, hm]
      | some k => cases k <;> simp_all [processEvent, agreeNoSide, isCKeyDown, hc, hv, hm]
  | keyUp sc => simp [processEvent, agreeNoSide, hc, hv, hm]
  | window we => cases we <;> simp [processEvent, agreeNoSide, hc, hv, hm]
  | mouseWheel y => simp [processEvent, agreeNoSide, hc, hv, hm]
  | mouseMotion a b r => simp [processEvent, agreeNoSide, hc, hv, hm]
  | otherEvent => simp [processEvent, agreeNoSide, hc, hv, hm]

lemma processEvents_strip (es : List Event) :
    ∀ s t : LoopState, agreeNoSide s t →
      agreeNoSide (processEvents s es).1 (processEvents t (stripC es)).1
      ∧ (processEvents s es).2 = (processEvents t (stripC es)).2 := by
  induction es with
  | nil => exact fun s t h => ⟨h, rfl⟩
  | cons e rest ih =>
      intro s t h
      by_cases hce : isCKeyDown e = true
      · have he : e = Event.keyDown (some Scancode.c) := by
          cases e with
          | keyDown sc =>
              cases sc with
              | none => simp [isCKeyDown] at hce
              | some k => cases k <;> simp_all [isCKeyDown]
          | quit => simp [isCKeyDown] at hce
          | keyUp sc => simp [isCKeyDown] at hce
          | window we => simp [isCKeyDown] at hce
          | mouseWheel y => simp [isCKeyDown] at hce
          | mouseMotion a b r => simp [isCKeyDown] at hce
          | otherEvent => simp [isCKeyDown] at hce
        subst he
        have hstrip : stripC (Event.keyDown (some Scancode.c) :: rest)
            = stripC rest := by
          simp [stripC, isCKeyDown]
        rw [hstrip,
          processEvents_cons_noquit s (Event.keyDown (some Scancode.c)) rest rfl]
        have hagree : agreeNoSide
            (processEvent s (Event.keyDown (some Scancode.c))).1 t := h
        have := ih (processEvent s (Event.keyDown (some Scancode.c))).1 t hagree
        exact ⟨this.1, by
          simp only [processEvent]
          rw [List.nil_append]
          exact congrArg (fun p => (p.1, p.2)) this.2⟩
      · have he : isCKeyDown e = false := by
          cases hres : isCKeyDown e
          · rfl
          · exact absurd hres hce
        have hstrip : stripC (e :: rest) = e :: stripC rest := by
          simp [stripC, he]
        have hA := processEvent_agree s t e ⟨h.1, h.2.1, h.2.2⟩ he
        rw [hstrip]
        cases hq : (processEvent s e).2.2 with
        | true =>
            have hq2 : (processEvent t e).2.2 = true := by
              rw [← hA.2]; exact hq
            rw [processEvents_cons_quit s e rest hq,
              processEvents_cons_quit t e (stripC rest) hq2]
            exact ⟨hA.1, by rw [hA.2]⟩
        | false =>
            have hq2 : (processEvent t e).2.2 = false := by
              rw [← hA.2]; exact hq
            rw [processEvents_cons_noquit s e rest hq,
              processEvents_cons_noquit t e (stripC rest) hq2]
            have hI := ih (processEvent s e).1 (processEvent t e).1 hA.1
            refine ⟨hI.1, ?_⟩
            rw [hA.2, hI.2]

lemma frameBody_agree (s t : LoopState) (dt : ℚ) (h : agreeNoSide s t) :
    agreeNoSide (frameBody s dt).1 (frameBody t dt).1
    ∧ (frameBody s dt).2 = (frameBody t dt).2 := by
  obtain ⟨hc, hv, hm⟩ := h
  constructor
  · exact ⟨by simp [frameBody, hc], by simp [frameBody, hv],
      by simp [frameBody, hc, hm]⟩
  · simp [frameBody, hc]

lemma processFrame_eq_quit (s : LoopState) (f : FrameInput)
    (hq : (processEvents s f.events).2.2 = true) :
    processFrame s f
      = ((processEvents s f.events).1,
         ((processEvents s f.events).2.1, true)) := by
  simp only [processFrame]
  rw [if_pos (by simp [hq])]

lemma processFrame_eq_noquit (s : LoopState) (f : FrameInput)
    (hq : (processEvents s f.events).2.2 = false) :
    processFrame s f
      = ((frameBody (processEvents s f.events).1 f.dt).1,
         ((processEvents s f.events).2.1
            ++ (frameBody (processEvents s f.events).1 f.dt).2,
          false)) := by
  simp only [processFrame]
  rw [if_neg (by simp [hq])]

lemma processFrame_strip (s t : LoopState) (f : FrameInput)
    (h : agreeNoSide s t) :
    agreeNoSide (processFrame s f).1 (processFrame t (stripFrame f)).1
    ∧ (processFrame s f).2 = (processFrame t (stripFrame f)).2 := by
  have hE := processEvents_strip f.events s t h
  cases hq : (processEvents s f.events).2.2 with
  | true =>
      have hq2 : (processEvents t (stripFrame f).events).2.2 = true := by
        show (processEvents t (stripC f.events)).2.2 = true
        rw [← (congrArg (fun p => p.2) hE.2)]
        exact hq
      rw [processFrame_eq_quit s f hq,
        processFrame_eq_quit t (stripFrame f) hq2]
      exact ⟨hE.1, by
        show ((processEvents s f.events).2.1, true)
          = ((processEvents t (stripC f.events)).2.1, true)
        rw [congrArg (fun p => p.1) hE.2]⟩
  | false =>
      have hq2 : (processEvents t (stripFrame f).events).2.2 = false := by
        show (processEvents t (stripC f.events)).2.2 = false
        rw [← (congrArg (fun p => p.2) hE.2)]
        exact hq
      rw [processFrame_eq_noquit s f hq,
        processFrame_eq_noquit t (stripFrame f) hq2]
      have hB := frameBody_agree (processEvents s f.events).1
        (processEvents t (stripC f.events)).1 f.dt hE.1
      refine ⟨hB.1, ?_⟩
      show ((processEvents s f.events).2.1
              ++ (frameBody (processEvents s f.events).1 f.dt).2, false)
        = ((processEvents t (stripC f.events)).2.1
              ++ (frameBody (processEvents t (stripC f.events)).1 f.dt).2, false)
      rw [congrArg (fun p => p.1) hE.2, hB.2]

lemma runLoop_cons_quit (s : LoopState) (f : FrameInput)
    (rest : List FrameInput) (hq : (processFrame s f).2.2 = true) :
    runLoop s (f :: rest) = ((processFrame s f).1, (processFrame s f).2.1) := by
  simp only [runLoop]
  rw [if_pos (by simp [hq])]

lemma runLoop_cons_noquit (s : LoopState) (f : FrameInput)
    (rest : List FrameInput) (hq : (processFrame s f).2.2 = false) :
    runLoop s (f :: rest)
      = ((runLoop (processFrame s f).1 rest).1,
         (processFrame s f).2.1 ++ (runLoop (processFrame s f).1 rest).2) := by
  simp only [runLoop]
  rw [if_neg (by simp [hq])]

lemma runLoop_strip (fs : List FrameInput) :
    ∀ s t : LoopState, agreeNoSide s t →
      agreeNoSide (runLoop s fs).1 (runLoop t (fs.map stripFrame)).1
      ∧ (runLoop s fs).2 = (runLoop t (fs.map stripFrame)).2 := by
  induction fs with
  | nil => exact fun s t h => ⟨h, rfl⟩
  | cons f rest ih =>
      intro s t h
      have hF := processFrame_strip s t f h
      rw [List.map_cons]
      cases hq : (processFrame s f).2.2 with
      | true =>
          have hq2 : (processFrame t (stripFrame f)).2.2 = true := by
            rw [← (congrArg (fun p => p.2) hF.2)]; exact hq
          rw [runLoop_cons_quit s f rest hq,
            runLoop_cons_quit t (stripFrame f) (rest.map stripFrame) hq2]
          exact ⟨hF.1, congrArg (fun p => p.1) hF.2⟩
      | false =>
          have hq2 : (processFrame t (stripFrame f)).2.2 = false := by
            rw [← (congrArg (fun p => p.2) hF.2)]; exact hq
          rw [runLoop_cons_noquit s f rest hq,
            runLoop_cons_noquit t (stripFrame f) (rest.map stripFrame) hq2]
          have hI := ih (processFrame s f).1 (processFrame t (stripFrame f)).1 hF.1
          refine ⟨hI.1, ?_⟩
          rw [congrArg (fun p => p.1) hF.2, hI.2]

/-- C10: a C key-down mutates only the side_cam boolean, and side_cam is
never read: two runs whose states agree on everything but side_cam and
whose frame inputs are identical up to removal of C key-downs produce
camera, viewport and marker states that agree and bitwise identical call
traces, hence identical draw-call arguments in every frame. -/
theorem c10_side_cam_unobservable (s t : LoopState) (fs gs : List FrameInput)
    (hst : agreeNoSide s t) (hfg : fs.map stripFrame = gs.map stripFrame) :
    (∀ u : LoopState, processEvent u (Event.keyDown (some Scancode.c))
        = ({ u with sideCam := !u.sideCam }, ([], false)))
    ∧ agreeNoSide (runLoop s fs).1 (runLoop t gs).1
    ∧ (runLoop s fs).2 = (runLoop t gs).2 := by
  have h1 := runLoop_strip fs s t hst
  have h2 := runLoop_strip gs t t ⟨rfl, rfl, rfl⟩
  rw [hfg] at h1
  refine ⟨fun u => rfl, ?_, ?_⟩
  · obtain ⟨a1, b1, c1⟩ := h1.1
    obtain ⟨a2, b2, c2⟩ := h2.1
    exact ⟨a1.trans a2.symm, b1.trans b2.symm, c1.trans c2.symm⟩
  · exact h1.2.trans h2.2.symm

/-- C10 witness: a run with one C key-down against a run with none. -/
theorem c10_side_cam_unobservable_witness :
    agreeNoSide initState initState
    ∧ ([FrameInput.mk [Event.keyDown (some Scancode.c)] 1].map stripFrame
        = [FrameInput.mk [] 1].map stripFrame)
    ∧ agreeNoSide
        (runLoop initState [FrameInput.mk [Event.keyDown (some Scancode.c)] 1]).1
        (runLoop initState [FrameInput.mk [] 1]).1
    ∧ (runLoop initState [FrameInput.mk [Event.keyDown (some Scancode.c)] 1]).2
        = (runLoop initState [FrameInput.mk [] 1]).2 :=
  ⟨⟨rfl, rfl, rfl⟩, rfl,
   (c10_side_cam_unobservable initState initState
      [FrameInput.mk [Event.keyDown (some Scancode.c)] 1]
      [FrameInput.mk [] 1] ⟨rfl, rfl, rfl⟩ rfl).2.1,
   (c10_side_cam_unobservable initState initState
      [FrameInput.mk [Event.keyDown (some Scancode.c)] 1]
      [FrameInput.mk [] 1] ⟨rfl, rfl, rfl⟩ rfl).2.2⟩

/-- Outcome of each fallible startup step of run (src/main.rs lines 57
to 109): none means the step succeeds, some msg means it fails with that
message.  The steps, in program order: Resources::from_relative_exe_path,
sdl2::init, sdl.video, window build, gl_create_context,
DebugLines::new (shader setup), Cube::new (shader setup), event_pump. -/
structure StartupEnv : Type where
  resInit : Option String
  sdlInit : Option String
  videoInit : Option String
  windowBuild : Option String
  glContextInit : Option String
  debugLinesInit : Option String
  cubeInit : Option String
  pumpInit : Option String
deriving DecidableEq

/-- How run terminates during startup: reaching the main loop, an Err
propagated to the caller, or a panic. -/
inductive RunResult : Type
  | ok
  | err (msg : String)
  | panicked (msg : String)
deriving DecidableEq

/-- Embedding of the startup sequence of run (src/main.rs lines 57 to
109).  The Resources construction at line 58 is consumed with unwrap, so
its failure panics; every later fallible step uses the question-mark
operator and returns the error to the caller. -/
def runStartup (env : StartupEnv) : RunResult :=
  match env.resInit with
  | some m => .panicked m
  | none =>
  match env.sdlInit with
  | some m => .err m
  | none =>
  match env.videoInit with
  | some m => .err m
  | none =>
  match env.windowBuild with
  | some m => .err m
  | none =>
  match env.glContextInit with
  | some m => .err m
  | none =>
  match env.debugLinesInit with
  | some m => .err m
  | none =>
  match env.cubeInit with
  | some m => .err m
  | none =>
  match env.pumpInit with
  | some m => .err m
  | none => .ok

/-- Modelled from the spec: debug::failure_to_string, the error-string
formatting collaborator (out of scope in spec section 1), represented as
the identity on the message. -/
def failure_to_string (m : String) : String := m

/-- How the process terminates: normal exit with the list of printed
lines, or a panic with its message. -/
inductive ProcessOutcome : Type
  | exitNormally (printed : List String)
  | panicAbort (msg : String)
deriving DecidableEq

/-- Embedding of main (src/main.rs lines 51 to 55): if run returns an
error it is printed through debug::failure_to_string; a panic inside run
aborts the process without reaching the error printer. -/
def mainProcess (env : StartupEnv) : ProcessOutcome :=
  match runStartup env with
  | .ok => .exitNormally []
  | .err m => .exitNormally [failure_to_string m]
  | .panicked m => .panicAbort m

/-- The first failing step among those that run propagates with the
question-mark operator, in program order. -/
def firstRunError (env : StartupEnv) : Option String :=
  match env.sdlInit with
  | some m => some m
  | none =>
  match env.videoInit with
  | some m => some m
  | none =>
  match env.windowBuild with
  | some m => some m
  | none =>
  match env.glContextInit with
  | some m => some m
  | none =>
  match env.debugLinesInit with
  | some m => some m
  | none =>
  match env.cubeInit with
  | some m => some m
  | none => env.pumpInit

/-- An environment whose only failure is the Resources construction. -/
def resFailEnv : StartupEnv :=
  ⟨some "boom", none, none, none, none, none, none, none⟩

/-- C2 counterexample: when the resource loading of line 58 fails, the
process panics instead of exiting normally with the message printed
through the failure formatter, refuting the claim as stated. -/
theorem c2_resource_failure_panics :
    mainProcess resFailEnv = ProcessOutcome.panicAbort "boom" := rfl

/-- C2 as amended: every startup failure other than the initial
Resources construction (SDL init, video subsystem, window build, GL
context, debug-line shader setup, cube shader setup, event pump) makes
run return the error and main print it through failure_to_string and
exit without panicking; a failing Resources construction instead
terminates by panic, because line 58 consumes the result with unwrap. -/
theorem c2_startup_failures_printed_except_resources (env : StartupEnv)
    (m : String) :
    (env.resInit = none → firstRunError env = some m →
      runStartup env = RunResult.err m
      ∧ mainProcess env = ProcessOutcome.exitNormally [failure_to_string m])
    ∧ (env.resInit = some m → mainProcess env = ProcessOutcome.panicAbort m) := by
  obtain ⟨r, a1, a2, a3, a4, a5, a6, a7⟩ := env
  constructor
  · intro hres hfirst
    cases r with
    | some x => exact absurd hres (by simp)
    | none =>
        cases a1 <;> cases a2 <;> cases a3 <;> cases a4 <;> cases a5 <;>
          cases a6 <;> cases a7 <;>
          simp_all [runStartup, firstRunError, mainProcess, failure_to_string]
  · intro hres
    cases r with
    | some x =>
        have hx : x = m := by simpa using hres
        subst hx
        rfl
    | none => exact absurd hres (by simp)

/-- C2 witness: an environment whose SDL initialization fails is
reported through the formatter and exits normally. -/
theorem c2_startup_failures_printed_except_resources_witness :
    (StartupEnv.mk none (some "sdl failed") none none none none none none).resInit
        = none
    ∧ firstRunError
        (StartupEnv.mk none (some "sdl failed") none none none none none none)
        = some "sdl failed"
    ∧ runStartup
        (StartupEnv.mk none (some "sdl failed") none none none none none none)
        = RunResult.err "sdl failed"
    ∧ mainProcess
        (StartupEnv.mk none (some "sdl failed") none none none none none none)
        = ProcessOutcome.exitNormally [failure_to_string "sdl failed"] :=
  ⟨rfl, rfl,
   ((c2_startup_failures_printed_except_resources
      (StartupEnv.mk none (some "sdl failed") none none none none none none)
      "sdl failed").1 rfl rfl).1,
   ((c2_startup_failures_printed_except_resources
      (StartupEnv.mk none (some "sdl failed") none none none none none none)
      "sdl failed").1 rfl rfl).2⟩
